import Mathlib

/-
A shallow embedding of the HealthCare-Distributed-System record service
(src/app.py): a FastAPI application over a MongoDB patients collection.

The document store is modelled as an ordered list of BSON-like documents;
`insert_one`, `find_one` (with the one projection the code uses) and
`update_one` (with the `$set` and `$push` operators the code uses,
including dotted field paths) are modelled explicitly.  The pydantic
models (Coding, Condition, Medication, Observation, MedicalRecords,
Patient, ConnectionDetails) become Lean structures together with their
`.dict()` encodings into store documents.  The process-wide mutable
connection (client / db / patients_collection, swappable through
`change_connection`) becomes an explicit `ServerState` threaded through
every handler.
-/

namespace HealthCare

/-- BSON-like values held by documents in the store. `oid` stands for a
store-generated ObjectId, `null` for Python `None`. -/
inductive BVal : Type where
  | str : String → BVal
  | int : Int → BVal
  | oid : Nat → BVal
  | null : BVal
  | arr : List BVal → BVal
  | doc : List (String × BVal) → BVal
  deriving Repr

/-- A document: an ordered association list of fields. -/
abbrev BDoc := List (String × BVal)

/-- Lookup of a top-level field (first occurrence wins). -/
def getField : BDoc → String → Option BVal
  | [], _ => none
  | (k, w) :: rest, f => if k = f then some w else getField rest f

/-- Write a top-level field: replace the first occurrence in place, or
append the field at the end when absent (MongoDB `$set` behaviour). -/
def setField : BDoc → String → BVal → BDoc
  | [], f, v => [(f, v)]
  | (k, w) :: rest, f, v =>
      if k = f then (f, v) :: rest else (k, w) :: setField rest f v

/-- Split a MongoDB field path on dots, as the server does with keys such
as `"medicalRecords.conditions"`. -/
def splitOnDotAux : List Char → List Char → List String
  | [], acc => [String.mk acc.reverse]
  | c :: cs, acc =>
      if c = '.' then String.mk acc.reverse :: splitOnDotAux cs []
      else splitOnDotAux cs (c :: acc)

/-- Path splitting for dotted update keys. -/
def splitOnDot (s : String) : List String := splitOnDotAux s.data []

/-- The first dotted segment of an update key: the top-level field it
writes into. -/
def headSeg (key : String) : String := (splitOnDot key).headD ""

/-- A path segment MongoDB accepts in an update: nonempty and not an
operator name (no leading `$`). -/
def validSegment (seg : String) : Bool :=
  match seg.data with
  | [] => false
  | c :: _ => !(c == '$')

/-- Apply `$set` along one dotted path: replace the addressed value,
creating intermediate documents when absent; fail (write error) on an
invalid segment or a path step through a non-document value. -/
def setPath (d : BDoc) (path : List String) (v : BVal) : Option BDoc :=
  match path with
  | [] => none
  | [f] => if validSegment f then some (setField d f v) else none
  | f :: rest =>
      if validSegment f then
        match getField d f with
        | some (BVal.doc sub) =>
            (setPath sub rest v).map (fun sub' => setField d f (BVal.doc sub'))
        | some _ => none
        | none =>
            (setPath [] rest v).map (fun sub' => setField d f (BVal.doc sub'))
      else none

/-- Apply `$push` along one dotted path: append the element at the end of
the addressed array, creating a one-element array when the field is
absent; fail on a non-array target or a path step through a
non-document value. -/
def pushPath (d : BDoc) (path : List String) (v : BVal) : Option BDoc :=
  match path with
  | [] => none
  | [f] =>
      if validSegment f then
        match getField d f with
        | none => some (setField d f (BVal.arr [v]))
        | some (BVal.arr xs) => some (setField d f (BVal.arr (xs ++ [v])))
        | some _ => none
      else none
  | f :: rest =>
      if validSegment f then
        match getField d f with
        | some (BVal.doc sub) =>
            (pushPath sub rest v).map (fun sub' => setField d f (BVal.doc sub'))
        | some _ => none
        | none =>
            (pushPath [] rest v).map (fun sub' => setField d f (BVal.doc sub'))
      else none

/-- Apply a whole `$set` field map, key by key in document order; the
update is atomic, so any failing path fails the whole update. -/
def applySet (d : BDoc) (m : List (String × BVal)) : Option BDoc :=
  match m with
  | [] => some d
  | (key, v) :: rest =>
      match setPath d (splitOnDot key) v with
      | none => none
      | some d' => applySet d' rest

/-- The update documents src/app.py passes to `update_one`: a `$set` with
a field map, or a `$push` of one element onto a dotted array path. -/
inductive UpdateSpec : Type where
  | set : List (String × BVal) → UpdateSpec
  | push : String → BVal → UpdateSpec

/-- Apply an update document to one matched document. -/
def applyUpdate (d : BDoc) : UpdateSpec → Option BDoc
  | UpdateSpec.set m => applySet d m
  | UpdateSpec.push key v => pushPath d (splitOnDot key) v

/-- The patients collection: documents in insertion order, plus the
counter generating fresh ObjectIds. -/
structure Store where
  docs : List BDoc
  nextOid : Nat
  deriving Repr

/-- Filter used by every operation: does the document's `patientID` field
equal the given id (the filter `\x7b"patientID": patient_id\x7d`)? -/
def matchesId (d : BDoc) (pid : String) : Bool :=
  match getField d "patientID" with
  | some (BVal.str s) => s == pid
  | _ => false

/-- Model of `insert_one`: add an `_id` when the document has none and
append the document to the collection; returns the inserted id. -/
def insertOne (st : Store) (d : BDoc) : Store × Nat :=
  let withId : BDoc :=
    match getField d "_id" with
    | some _ => d
    | none => ("_id", BVal.oid st.nextOid) :: d
  (⟨st.docs ++ [withId], st.nextOid + 1⟩, st.nextOid)

/-- Model of `find_one` with filter `\x7b"patientID": pid\x7d`: the first
matching document in collection order, if any. -/
def findOne (st : Store) (pid : String) : Option BDoc :=
  st.docs.find? (fun d => matchesId d pid)

/-- Update the first document matching the filter, leaving every other
document untouched; reports the matched count (0 or 1), and fails when
the update itself raises a write error on the matched document. -/
def updateFirst (pid : String) (f : BDoc → Option BDoc) :
    List BDoc → Option (List BDoc × Nat)
  | [] => some ([], 0)
  | d :: rest =>
      if matchesId d pid then
        (f d).map (fun d' => (d' :: rest, 1))
      else
        (updateFirst pid f rest).map (fun p => (d :: p.1, p.2))

/-- Model of `update_one` with filter `\x7b"patientID": pid\x7d`. -/
def updateOne (st : Store) (pid : String) (u : UpdateSpec) :
    Option (Store × Nat) :=
  (updateFirst pid (fun d => applyUpdate d u) st.docs).map
    (fun p => (⟨p.1, st.nextOid⟩, p.2))

/-- The one projection the code uses, `\x7b"_id": 0, "medicalRecords": 1\x7d`:
keep only the `medicalRecords` field. -/
def projectMedicalRecords (d : BDoc) : BDoc :=
  match getField d "medicalRecords" with
  | some v => [("medicalRecords", v)]
  | none => []

/-! Pydantic request models of src/app.py, with their `.dict()`
encodings into store documents. -/

/-- Model `Coding`. -/
structure Coding where
  system : String
  code : String
  display : String

/-- Model `Condition`; `code` is a `Dict[str, List[Coding]]`, kept as an
ordered association list. -/
structure Condition where
  id : String
  code : List (String × List Coding)
  onsetDateTime : String
  clinicalStatus : String

/-- Model `Medication`; each dosage instruction is a loosely-typed
mapping. -/
structure Medication where
  status : String
  stage : String
  medication : String
  patientReference : String
  contextReference : String
  dateWritten : String
  dosageInstruction : List BDoc

/-- Model `Observation`; `value` and `unit` are optional. -/
structure Observation where
  id : String
  code : String
  value : Option String
  unit : Option String
  effectiveDateTime : String
  components : List BVal

/-- Model `MedicalRecords`: the three embedded arrays. -/
structure MedicalRecords where
  conditions : List Condition
  medications : List Medication
  observations : List Observation

/-- Model `Patient`. -/
structure Patient where
  patientID : String
  name : String
  age : Int
  gender : String
  region : String
  medicalRecords : MedicalRecords

/-- Model `ConnectionDetails` for the admin endpoint. -/
structure ConnectionDetails where
  host : String
  port : Int
  username : Option String
  password : Option String
  database : String

/-- Encoding of an optional string field under `.dict()`: `None` becomes
a null value. -/
def optStrVal : Option String → BVal
  | none => BVal.null
  | some s => BVal.str s

/-- The `.dict()` encoding of a `Coding`. -/
def Coding.toVal (c : Coding) : BVal :=
  BVal.doc [("system", BVal.str c.system), ("code", BVal.str c.code),
            ("display", BVal.str c.display)]

/-- The `.dict()` encoding of a `Condition`. -/
def Condition.toDoc (c : Condition) : BDoc :=
  [("id", BVal.str c.id),
   ("code", BVal.doc (c.code.map
      (fun kv => (kv.1, BVal.arr (kv.2.map Coding.toVal))))),
   ("onsetDateTime", BVal.str c.onsetDateTime),
   ("clinicalStatus", BVal.str c.clinicalStatus)]

/-- The `.dict()` encoding of a `Medication`. -/
def Medication.toDoc (m : Medication) : BDoc :=
  [("status", BVal.str m.status),
   ("stage", BVal.str m.stage),
   ("medication", BVal.str m.medication),
   ("patientReference", BVal.str m.patientReference),
   ("contextReference", BVal.str m.contextReference),
   ("dateWritten", BVal.str m.dateWritten),
   ("dosageInstruction", BVal.arr (m.dosageInstruction.map BVal.doc))]

/-- The `.dict()` encoding of an `Observation`. -/
def Observation.toDoc (o : Observation) : BDoc :=
  [("id", BVal.str o.id),
   ("code", BVal.str o.code),
   ("value", optStrVal o.value),
   ("unit", optStrVal o.unit),
   ("effectiveDateTime", BVal.str o.effectiveDateTime),
   ("components", BVal.arr o.components)]

/-- The `.dict()` encoding of a `MedicalRecords`. -/
def MedicalRecords.toDoc (r : MedicalRecords) : BDoc :=
  [("conditions", BVal.arr (r.conditions.map (fun c => BVal.doc c.toDoc))),
   ("medications", BVal.arr (r.medications.map (fun m => BVal.doc m.toDoc))),
   ("observations", BVal.arr (r.observations.map (fun o => BVal.doc o.toDoc)))]

/-- The `.dict()` encoding of a `Patient`. -/
def Patient.toDoc (p : Patient) : BDoc :=
  [("patientID", BVal.str p.patientID),
   ("name", BVal.str p.name),
   ("age", BVal.int p.age),
   ("gender", BVal.str p.gender),
   ("region", BVal.str p.region),
   ("medicalRecords", BVal.doc p.medicalRecords.toDoc)]

/-! The server: global connection state and the route handlers. -/

/-- Constant `ADMIN_USERNAME` of src/app.py. -/
def ADMIN_USERNAME : String := "admin"

/-- Constant `ADMIN_PASSWORD` of src/app.py. -/
def ADMIN_PASSWORD : String := "cse-512-master-password"

/-- The process-wide state: which patients collection every connection URI
and database name would reach (`world`, the external universe of Mongo
deployments), the currently installed client URI and database, and the
trace of client handles closed so far. -/
structure ServerState where
  world : String → String → Store
  uri : String
  database : String
  closedClients : List String

/-- The patients collection the currently installed handle reaches. -/
def activeStore (s : ServerState) : Store := s.world s.uri s.database

/-- Write back the active patients collection after an operation. -/
def setActiveStore (s : ServerState) (st : Store) : ServerState :=
  { s with world := fun u d =>
      if u = s.uri ∧ d = s.database then st else s.world u d }

/-- An HTTP response: a 200 payload or an `HTTPException` with status
code and detail. -/
inductive Resp (α : Type) : Type where
  | ok : α → Resp α
  | err : Nat → String → Resp α

/-- Model `authenticate_admin` (lines 70-72): the request passes iff both
headers are present and equal the configured constants. -/
def authenticate_admin (username password : Option String) : Bool :=
  username == some ADMIN_USERNAME && password == some ADMIN_PASSWORD

/-- Python truthiness of an optional string: absent and empty are falsy. -/
def truthy : Option String → Bool
  | none => false
  | some s => !(s == "")

/-- The connection URI `change_connection` builds (lines 81-84); note the
guard is Python truthiness of the two optional fields. -/
def mongoUri (c : ConnectionDetails) : String :=
  if truthy c.username && truthy c.password then
    "mongodb://" ++ c.username.getD "" ++ ":" ++ c.password.getD "" ++ "@"
      ++ c.host ++ ":" ++ toString c.port
  else
    "mongodb://" ++ c.host ++ ":" ++ toString c.port

/-- Handler `change_connection` (lines 75-97) together with its
`authenticate_admin` dependency: on bad credentials, 401 and no state
change; otherwise close the old client, build the URI and install the
new client/db/collection handle. -/
def change_connection (username password : Option String)
    (details : ConnectionDetails) (s : ServerState) :
    Resp String × ServerState :=
  if authenticate_admin username password then
    (Resp.ok "MongoDB connection updated successfully",
     { s with uri := mongoUri details,
              database := details.database,
              closedClients := s.closedClients ++ [s.uri] })
  else
    (Resp.err 401 "Unauthorized", s)

/-- Handler `create_patient` (lines 100-104): insert the `.dict()`
encoding, answer with the message and the generated id. -/
def create_patient (p : Patient) (s : ServerState) :
    Resp (String × String) × ServerState :=
  let res := insertOne (activeStore s) p.toDoc
  (Resp.ok ("Patient record created successfully", toString res.2),
   setActiveStore s res.1)

/-- Handler `get_patient` (lines 107-112): `find_one` on `patientID`,
404 when the result is falsy (missing or empty), otherwise the raw
document. -/
def get_patient (pid : String) (s : ServerState) :
    Resp BDoc × ServerState :=
  match findOne (activeStore s) pid with
  | none => (Resp.err 404 "Patient not found", s)
  | some d =>
      if d.isEmpty then (Resp.err 404 "Patient not found", s)
      else (Resp.ok d, s)

/-- Handler `update_patient` (lines 115-123): `$set` of the supplied
field map on the first match; 404 when nothing matched, 500 on a write
error. -/
def update_patient (pid : String) (update_data : List (String × BVal))
    (s : ServerState) : Resp String × ServerState :=
  match updateOne (activeStore s) pid (UpdateSpec.set update_data) with
  | none => (Resp.err 500 "write error", s)
  | some (st', n) =>
      if n = 0 then (Resp.err 404 "Patient not found", setActiveStore s st')
      else (Resp.ok "Patient record updated successfully", setActiveStore s st')

/-- Handler `get_medical_records` (lines 126-131): `find_one` under the
projection, 404 when the projected document is falsy or lacks the
field, otherwise just the `medicalRecords` value. -/
def get_medical_records (pid : String) (s : ServerState) :
    Resp BVal × ServerState :=
  match findOne (activeStore s) pid with
  | none => (Resp.err 404 "Medical records not found", s)
  | some d =>
      let pd := projectMedicalRecords d
      if pd.isEmpty then (Resp.err 404 "Medical records not found", s)
      else
        match getField pd "medicalRecords" with
        | none => (Resp.err 404 "Medical records not found", s)
        | some v => (Resp.ok v, s)

/-- Handler `update_medical_records` (lines 134-142): `$set` of the whole
`medicalRecords` field on the first match. -/
def update_medical_records (pid : String) (medical_records : MedicalRecords)
    (s : ServerState) : Resp String × ServerState :=
  match updateOne (activeStore s) pid
      (UpdateSpec.set [("medicalRecords", BVal.doc medical_records.toDoc)]) with
  | none => (Resp.err 500 "write error", s)
  | some (st', n) =>
      if n = 0 then (Resp.err 404 "Patient not found", setActiveStore s st')
      else (Resp.ok "Medical records updated successfully", setActiveStore s st')

/-- Handler `add_condition` (lines 145-154): `$push` of the condition's
`.dict()` onto `medicalRecords.conditions` of the first match. -/
def add_condition (pid : String) (condition : Condition)
    (s : ServerState) : Resp String × ServerState :=
  match updateOne (activeStore s) pid
      (UpdateSpec.push "medicalRecords.conditions" (BVal.doc condition.toDoc)) with
  | none => (Resp.err 500 "write error", s)
  | some (st', n) =>
      if n = 0 then (Resp.err 404 "Patient not found", setActiveStore s st')
      else (Resp.ok "Condition added successfully", setActiveStore s st')

/-- Handler `add_medication` (lines 157-166). -/
def add_medication (pid : String) (medication : Medication)
    (s : ServerState) : Resp String × ServerState :=
  match updateOne (activeStore s) pid
      (UpdateSpec.push "medicalRecords.medications" (BVal.doc medication.toDoc)) with
  | none => (Resp.err 500 "write error", s)
  | some (st', n) =>
      if n = 0 then (Resp.err 404 "Patient not found", setActiveStore s st')
      else (Resp.ok "Medication added successfully", setActiveStore s st')

/-- Handler `add_observation` (lines 169-178). -/
def add_observation (pid : String) (observation : Observation)
    (s : ServerState) : Resp String × ServerState :=
  match updateOne (activeStore s) pid
      (UpdateSpec.push "medicalRecords.observations" (BVal.doc observation.toDoc)) with
  | none => (Resp.err 500 "write error", s)
  | some (st', n) =>
      if n = 0 then (Resp.err 404 "Patient not found", setActiveStore s st')
      else (Resp.ok "Observation added successfully", setActiveStore s st')

/-- The state lines 10-13 of src/app.py start the process in: the default
localhost client over database `ehr_database`, no clients closed yet;
every deployment starts from an empty patients collection here. -/
def initialState : ServerState :=
  { world := fun _ _ => ⟨[], 0⟩,
    uri := "mongodb://localhost:27017",
    database := "ehr_database",
    closedClients := [] }

/-- A document embeds a well-formed MedicalRecords value: its
`medicalRecords` field holds the encoding of some `MedicalRecords`. -/
def WFPat (d : BDoc) : Prop :=
  ∃ r : MedicalRecords, getField d "medicalRecords" = some (BVal.doc r.toDoc)

/-- Every document of the collection embeds a well-formed MedicalRecords
value. -/
def WFStore (st : Store) : Prop := ∀ d ∈ st.docs, WFPat d

/-! Concrete sample data used to instantiate the theorems below. -/

/-- Empty medical records. -/
def mrEmpty : MedicalRecords := ⟨[], [], []⟩

/-- A sample patient. -/
def patientAlice : Patient := ⟨"p1", "Alice", 30, "F", "NE", mrEmpty⟩

/-- A second sample patient sharing Alice's patientID. -/
def patientBob : Patient := ⟨"p1", "Bob", 41, "M", "SW", mrEmpty⟩

/-- The concrete condition of the spec's sample scenario. -/
def cond1 : Condition :=
  ⟨"c1", [("icd10", [⟨"http://hl7.org/icd10", "E11", "Type 2 diabetes"⟩])],
   "2020-01-01", "active"⟩

/-- A second sample condition. -/
def cond2 : Condition := ⟨"c2", [], "2021-05-05", "resolved"⟩

/-- A sample medication. -/
def med1 : Medication := ⟨"active", "stage1", "metformin", "p1", "ctx", "2020-02-02", []⟩

/-- A sample observation. -/
def obs1 : Observation := ⟨"o1", "bp", some "120", some "mmHg", "2020-03-03", []⟩

/-- The state after creating Alice in the initial deployment. -/
def sAlice : ServerState := (create_patient patientAlice initialState).2

/-- The stored document create_patient writes for Alice. -/
def docAlice : BDoc := ("_id", BVal.oid 0) :: patientAlice.toDoc

/-- Connection details whose username is present but empty. -/
def detailsEmptyUser : ConnectionDetails := ⟨"h", 7, some "", some "pw", "db"⟩

/-! Basic lemmas about the document model. -/

theorem getField_setField_same (d : BDoc) (f : String) (v : BVal) :
    getField (setField d f v) f = some v := by
  induction d with
  | nil => simp [setField, getField]
  | cons kv rest ih =>
      obtain ⟨k, w⟩ := kv
      by_cases h : k = f
      · simp [setField, getField, h]
      · simp [setField, getField, h, ih]

theorem getField_setField_other (d : BDoc) (f g : String) (v : BVal)
    (hg : g ≠ f) : getField (setField d f v) g = getField d g := by
  induction d with
  | nil => simp [setField, getField, Ne.symm hg]
  | cons kv rest ih =>
      obtain ⟨k, w⟩ := kv
      by_cases h : k = f
      · subst h
        simp [setField, getField, Ne.symm hg]
      · simp [setField, getField, h, ih]

theorem splitOnDotAux_ne_nil (cs acc : List Char) : splitOnDotAux cs acc ≠ [] := by
  induction cs generalizing acc with
  | nil => simp [splitOnDotAux]
  | cons c cs ih =>
      by_cases h : c = '.'
      · simp [splitOnDotAux, h]
      · simp [splitOnDotAux, h, ih]

theorem splitOnDot_ne_nil (s : String) : splitOnDot s ≠ [] :=
  splitOnDotAux_ne_nil s.data []

theorem getField_setPath_other {d d' : BDoc} {seg : String}
    {rest : List String} {v : BVal} {g : String}
    (h : setPath d (seg :: rest) v = some d') (hg : g ≠ seg) :
    getField d' g = getField d g := by
  cases rest with
  | nil =>
      by_cases hv : validSegment seg
      · simp [setPath, hv] at h
        subst h
        exact getField_setField_other d seg g v hg
      · simp [setPath, hv] at h
  | cons s2 rest2 =>
      by_cases hv : validSegment seg
      · cases hget : getField d seg with
        | none =>
            simp [setPath, hv, hget] at h
            obtain ⟨sub', _, h2⟩ := h
            subst h2
            exact getField_setField_other d seg g _ hg
        | some w =>
            cases w with
            | doc sub =>
                simp [setPath, hv, hget] at h
                obtain ⟨sub', _, h2⟩ := h
                subst h2
                exact getField_setField_other d seg g _ hg
            | str a => simp [setPath, hv, hget] at h
            | int a => simp [setPath, hv, hget] at h
            | oid a => simp [setPath, hv, hget] at h
            | null => simp [setPath, hv, hget] at h
            | arr a => simp [setPath, hv, hget] at h
      · simp [setPath, hv] at h

theorem getField_pushPath_other {d d' : BDoc} {seg : String}
    {rest : List String} {v : BVal} {g : String}
    (h : pushPath d (seg :: rest) v = some d') (hg : g ≠ seg) :
    getField d' g = getField d g := by
  cases rest with
  | nil =>
      by_cases hv : validSegment seg
      · cases hget : getField d seg with
        | none =>
            simp [pushPath, hv, hget] at h
            subst h
            exact getField_setField_other d seg g _ hg
        | some w =>
            cases w with
            | arr xs =>
                simp [pushPath, hv, hget] at h
                subst h
                exact getField_setField_other d seg g _ hg
            | str a => simp [pushPath, hv, hget] at h
            | int a => simp [pushPath, hv, hget] at h
            | oid a => simp [pushPath, hv, hget] at h
            | null => simp [pushPath, hv, hget] at h
            | doc a => simp [pushPath, hv, hget] at h
      · simp [pushPath, hv] at h
  | cons s2 rest2 =>
      by_cases hv : validSegment seg
      · cases hget : getField d seg with
        | none =>
            simp [pushPath, hv, hget] at h
            obtain ⟨sub', _, h2⟩ := h
            subst h2
            exact getField_setField_other d seg g _ hg
        | some w =>
            cases w with
            | doc sub =>
                simp [pushPath, hv, hget] at h
                obtain ⟨sub', _, h2⟩ := h
                subst h2
                exact getField_setField_other d seg g _ hg
            | str a => simp [pushPath, hv, hget] at h
            | int a => simp [pushPath, hv, hget] at h
            | oid a => simp [pushPath, hv, hget] at h
            | null => simp [pushPath, hv, hget] at h
            | arr a => simp [pushPath, hv, hget] at h
      · simp [pushPath, hv] at h

theorem getField_applySet_other {m : List (String × BVal)} {d d' : BDoc}
    {g : String} (h : applySet d m = some d')
    (hg : ∀ kv ∈ m, headSeg kv.1 ≠ g) :
    getField d' g = getField d g := by
  induction m generalizing d with
  | nil =>
      simp [applySet] at h
      subst h
      rfl
  | cons kv rest ih =>
      obtain ⟨key, v⟩ := kv
      obtain ⟨seg, tail, hsplit⟩ :=
        List.exists_cons_of_ne_nil (splitOnDot_ne_nil key)
      have hseg : headSeg key = seg := by simp [headSeg, hsplit]
      cases hsp : setPath d (splitOnDot key) v with
      | none =>
          rw [applySet, hsp] at h
          exact absurd h (by simp)
      | some d1 =>
          rw [applySet, hsp] at h
          have h1 : getField d' g = getField d1 g :=
            ih h (fun e he => hg e (by simp [he]))
          rw [hsplit] at hsp
          have hgseg : g ≠ seg := by
            intro hcontra
            exact hg (key, v) (by simp) (by simp [hseg, hcontra])
          rw [h1, getField_setPath_other hsp hgseg]

/-! Lemmas about the store operations. -/

theorem matchesId_iff {d : BDoc} {pid : String} :
    matchesId d pid = true ↔ getField d "patientID" = some (BVal.str pid) := by
  unfold matchesId
  cases h : getField d "patientID" with
  | none => simp
  | some v => cases v <;> simp

theorem matchesId_ne_nil {d : BDoc} {pid : String}
    (h : matchesId d pid = true) : d ≠ [] := by
  intro hnil
  subst hnil
  simp [matchesId, getField] at h

theorem findOne_eq_none {st : Store} {pid : String} :
    findOne st pid = none ↔ ∀ d ∈ st.docs, matchesId d pid = false := by
  simp [findOne, List.find?_eq_none]

theorem find?_split {p : BDoc → Bool} {pre post : List BDoc} {d : BDoc}
    (hpre : ∀ e ∈ pre, p e = false) (hd : p d = true) :
    List.find? p (pre ++ d :: post) = some d := by
  induction pre with
  | nil => simp [List.find?, hd]
  | cons e rest ih =>
      have he : p e = false := hpre e (by simp)
      simp only [List.cons_append, List.find?]
      rw [he]
      exact ih (fun x hx => hpre x (by simp [hx]))

theorem findOne_split {st : Store} {pid : String} {pre post : List BDoc}
    {d : BDoc} (hdocs : st.docs = pre ++ d :: post)
    (hpre : ∀ e ∈ pre, matchesId e pid = false)
    (hd : matchesId d pid = true) :
    findOne st pid = some d := by
  rw [findOne, hdocs]
  exact find?_split hpre hd

theorem findOne_mem_match {st : Store} {pid : String} {d : BDoc}
    (h : findOne st pid = some d) :
    d ∈ st.docs ∧ matchesId d pid = true := by
  rw [findOne] at h
  refine ⟨List.mem_of_find?_eq_some h, ?_⟩
  have h2 := List.find?_some h
  simpa using h2

theorem updateFirst_no_match {pid : String} {f : BDoc → Option BDoc}
    {l : List BDoc} (h : ∀ e ∈ l, matchesId e pid = false) :
    updateFirst pid f l = some (l, 0) := by
  induction l with
  | nil => rfl
  | cons d rest ih =>
      have hd : matchesId d pid = false := h d (by simp)
      simp [updateFirst, hd, ih (fun e he => h e (by simp [he]))]

theorem updateFirst_split {pid : String} {f : BDoc → Option BDoc}
    {pre post : List BDoc} {d d' : BDoc}
    (hpre : ∀ e ∈ pre, matchesId e pid = false)
    (hd : matchesId d pid = true) (hf : f d = some d') :
    updateFirst pid f (pre ++ d :: post) = some (pre ++ d' :: post, 1) := by
  induction pre with
  | nil => simp [updateFirst, hd, hf]
  | cons e rest ih =>
      have he : matchesId e pid = false := hpre e (by simp)
      simp [updateFirst, he, ih (fun x hx => hpre x (by simp [hx]))]

theorem updateFirst_mem {pid : String} {f : BDoc → Option BDoc}
    {l l' : List BDoc} {n : Nat} (h : updateFirst pid f l = some (l', n)) :
    ∀ e ∈ l', e ∈ l ∨ ∃ d ∈ l, matchesId d pid = true ∧ f d = some e := by
  induction l generalizing l' n with
  | nil =>
      rw [updateFirst] at h
      injection h with h
      injection h with h1 h2
      subst h1
      intro e he
      simp at he
  | cons d rest ih =>
      by_cases hm : matchesId d pid
      · rw [updateFirst, if_pos hm] at h
        cases hfd : f d with
        | none => rw [hfd] at h; simp at h
        | some d'' =>
            rw [hfd] at h
            simp only [Option.map_some'] at h
            injection h with h
            injection h with h1 h2
            subst h1
            intro e he
            rcases List.mem_cons.mp he with h1 | h1
            · exact Or.inr ⟨d, by simp, hm, by rw [h1]; exact hfd⟩
            · exact Or.inl (by simp [h1])
      · rw [updateFirst, if_neg hm] at h
        cases hrec : updateFirst pid f rest with
        | none => rw [hrec] at h; simp at h
        | some q =>
            obtain ⟨l₂, n₂⟩ := q
            rw [hrec] at h
            simp only [Option.map_some'] at h
            injection h with h
            injection h with h1 h2
            subst h1
            intro e he
            rcases List.mem_cons.mp he with h1 | h1
            · exact Or.inl (by simp [h1])
            · rcases ih hrec e h1 with h2 | ⟨d₀, hd₀, hmm, hff⟩
              · exact Or.inl (by simp [h2])
              · exact Or.inr ⟨d₀, by simp [hd₀], hmm, hff⟩

theorem activeStore_setActiveStore (s : ServerState) (st : Store) :
    activeStore (setActiveStore s st) = st := by
  simp [activeStore, setActiveStore]

/-! Lemmas about the encodings and about each handler's effect. -/

theorem getField_patient_mr (p : Patient) :
    getField p.toDoc "medicalRecords" = some (BVal.doc p.medicalRecords.toDoc) := rfl

theorem getField_patient_id (p : Patient) :
    getField p.toDoc "_id" = none := rfl

theorem pushPath_conditions {d : BDoc} {r : MedicalRecords} (c : Condition)
    (h : getField d "medicalRecords" = some (BVal.doc r.toDoc)) :
    pushPath d (splitOnDot "medicalRecords.conditions") (BVal.doc c.toDoc)
      = some (setField d "medicalRecords"
          (BVal.doc ({ r with conditions := r.conditions ++ [c] } : MedicalRecords).toDoc)) := by
  have hsplit : splitOnDot "medicalRecords.conditions"
      = ["medicalRecords", "conditions"] := rfl
  have hv1 : validSegment "medicalRecords" = true := rfl
  have hv2 : validSegment "conditions" = true := rfl
  rw [hsplit]
  simp [pushPath, hv1, hv2, h, MedicalRecords.toDoc, getField, setField]

theorem pushPath_medications {d : BDoc} {r : MedicalRecords} (m : Medication)
    (h : getField d "medicalRecords" = some (BVal.doc r.toDoc)) :
    pushPath d (splitOnDot "medicalRecords.medications") (BVal.doc m.toDoc)
      = some (setField d "medicalRecords"
          (BVal.doc ({ r with medications := r.medications ++ [m] } : MedicalRecords).toDoc)) := by
  have hsplit : splitOnDot "medicalRecords.medications"
      = ["medicalRecords", "medications"] := rfl
  have hv1 : validSegment "medicalRecords" = true := rfl
  have hv2 : validSegment "medications" = true := rfl
  rw [hsplit]
  simp [pushPath, hv1, hv2, h, MedicalRecords.toDoc, getField, setField]

theorem pushPath_observations {d : BDoc} {r : MedicalRecords} (o : Observation)
    (h : getField d "medicalRecords" = some (BVal.doc r.toDoc)) :
    pushPath d (splitOnDot "medicalRecords.observations") (BVal.doc o.toDoc)
      = some (setField d "medicalRecords"
          (BVal.doc ({ r with observations := r.observations ++ [o] } : MedicalRecords).toDoc)) := by
  have hsplit : splitOnDot "medicalRecords.observations"
      = ["medicalRecords", "observations"] := rfl
  have hv1 : validSegment "medicalRecords" = true := rfl
  have hv2 : validSegment "observations" = true := rfl
  rw [hsplit]
  simp [pushPath, hv1, hv2, h, MedicalRecords.toDoc, getField, setField]

theorem applySet_single (d : BDoc) (key : String) (v : BVal) :
    applySet d [(key, v)] = setPath d (splitOnDot key) v := by
  cases h : setPath d (splitOnDot key) v with
  | none => simp [applySet, h]
  | some d' => simp [applySet, h]

theorem setPath_mr (d : BDoc) (v : BVal) :
    setPath d (splitOnDot "medicalRecords") v
      = some (setField d "medicalRecords" v) := by
  have hsplit : splitOnDot "medicalRecords" = ["medicalRecords"] := rfl
  have hv1 : validSegment "medicalRecords" = true := rfl
  rw [hsplit]
  simp [setPath, hv1]

theorem create_patient_effect (p : Patient) (s : ServerState) :
    create_patient p s
      = (Resp.ok ("Patient record created successfully",
           toString (activeStore s).nextOid),
         setActiveStore s
           ⟨(activeStore s).docs
              ++ [("_id", BVal.oid (activeStore s).nextOid) :: p.toDoc],
            (activeStore s).nextOid + 1⟩) := by
  simp [create_patient, insertOne, getField_patient_id]

theorem get_patient_none {s : ServerState} {pid : String}
    (hfind : findOne (activeStore s) pid = none) :
    get_patient pid s = (Resp.err 404 "Patient not found", s) := by
  simp [get_patient, hfind]

theorem get_patient_found {s : ServerState} {pid : String} {d : BDoc}
    (hfind : findOne (activeStore s) pid = some d) (hne : d ≠ []) :
    get_patient pid s = (Resp.ok d, s) := by
  have hne' : d.isEmpty = false := by
    cases d with
    | nil => exact absurd rfl hne
    | cons a l => rfl
  simp [get_patient, hfind, hne']

theorem get_medical_records_found {s : ServerState} {pid : String}
    {d : BDoc} {v : BVal} (hfind : findOne (activeStore s) pid = some d)
    (hv : getField d "medicalRecords" = some v) :
    get_medical_records pid s = (Resp.ok v, s) := by
  simp [get_medical_records, hfind, projectMedicalRecords, hv, getField]

theorem updateOne_split {st : Store} {pid : String} {u : UpdateSpec}
    {pre post : List BDoc} {d d' : BDoc}
    (hdocs : st.docs = pre ++ d :: post)
    (hpre : ∀ e ∈ pre, matchesId e pid = false)
    (hd : matchesId d pid = true)
    (hf : applyUpdate d u = some d') :
    updateOne st pid u = some (⟨pre ++ d' :: post, st.nextOid⟩, 1) := by
  rw [updateOne, hdocs, updateFirst_split hpre hd hf]
  rfl

theorem add_condition_effect {s : ServerState} {pid : String}
    {pre post : List BDoc} {d : BDoc} {r : MedicalRecords} (c : Condition)
    (hdocs : (activeStore s).docs = pre ++ d :: post)
    (hpre : ∀ e ∈ pre, matchesId e pid = false)
    (hd : matchesId d pid = true)
    (hmr : getField d "medicalRecords" = some (BVal.doc r.toDoc)) :
    add_condition pid c s
      = (Resp.ok "Condition added successfully",
         setActiveStore s
           ⟨pre ++ setField d "medicalRecords"
               (BVal.doc ({ r with conditions := r.conditions ++ [c] } :
                  MedicalRecords).toDoc) :: post,
            (activeStore s).nextOid⟩) := by
  have hf : applyUpdate d (UpdateSpec.push "medicalRecords.conditions"
      (BVal.doc c.toDoc))
      = some (setField d "medicalRecords"
          (BVal.doc ({ r with conditions := r.conditions ++ [c] } :
            MedicalRecords).toDoc)) := pushPath_conditions c hmr
  have hu := updateOne_split hdocs hpre hd hf
  simp [add_condition, hu]

theorem update_medical_records_effect {s : ServerState} {pid : String}
    {pre post : List BDoc} {d : BDoc} (newR : MedicalRecords)
    (hdocs : (activeStore s).docs = pre ++ d :: post)
    (hpre : ∀ e ∈ pre, matchesId e pid = false)
    (hd : matchesId d pid = true) :
    update_medical_records pid newR s
      = (Resp.ok "Medical records updated successfully",
         setActiveStore s
           ⟨pre ++ setField d "medicalRecords" (BVal.doc newR.toDoc) :: post,
            (activeStore s).nextOid⟩) := by
  have hf : applyUpdate d
      (UpdateSpec.set [("medicalRecords", BVal.doc newR.toDoc)])
      = some (setField d "medicalRecords" (BVal.doc newR.toDoc)) := by
    rw [applyUpdate, applySet_single, setPath_mr]
  have hu := updateOne_split hdocs hpre hd hf
  simp [update_medical_records, hu]

theorem update_patient_effect {s : ServerState} {pid : String}
    {pre post : List BDoc} {d d' : BDoc} (m : List (String × BVal))
    (hdocs : (activeStore s).docs = pre ++ d :: post)
    (hpre : ∀ e ∈ pre, matchesId e pid = false)
    (hd : matchesId d pid = true)
    (happ : applySet d m = some d') :
    update_patient pid m s
      = (Resp.ok "Patient record updated successfully",
         setActiveStore s ⟨pre ++ d' :: post, (activeStore s).nextOid⟩) := by
  have hf : applyUpdate d (UpdateSpec.set m) = some d' := happ
  have hu := updateOne_split hdocs hpre hd hf
  simp [update_patient, hu]

theorem findOne_after_create {s : ServerState} {p : Patient}
    (hfresh : ∀ d ∈ (activeStore s).docs, matchesId d p.patientID = false) :
    findOne (activeStore ((create_patient p s).2)) p.patientID
      = some (("_id", BVal.oid (activeStore s).nextOid) :: p.toDoc) := by
  have hact : activeStore ((create_patient p s).2)
      = ⟨(activeStore s).docs
           ++ [("_id", BVal.oid (activeStore s).nextOid) :: p.toDoc],
         (activeStore s).nextOid + 1⟩ := by
    rw [show (create_patient p s).2
        = setActiveStore s
            ⟨(activeStore s).docs
               ++ [("_id", BVal.oid (activeStore s).nextOid) :: p.toDoc],
             (activeStore s).nextOid + 1⟩
      from congrArg Prod.snd (create_patient_effect p s)]
    exact activeStore_setActiveStore s _
  have hmatch : matchesId
      (("_id", BVal.oid (activeStore s).nextOid) :: p.toDoc) p.patientID = true := by
    rw [matchesId_iff]
    rfl
  rw [findOne, hact]
  exact find?_split hfresh hmatch

/-! The claims. -/

/-- C1 counterexample: the round-trip claim fails as stated when a
document with the same patientID already exists.  Starting from the
initial state, create Alice (patientID "p1"), then create Bob (also
patientID "p1") and read "p1" back: the returned document carries
Alice's fields, not Bob's. -/
theorem create_then_get_duplicate_cex :
    (get_patient "p1"
        ((create_patient patientBob ((create_patient patientAlice initialState).2)).2)).1
      = Resp.ok docAlice
    ∧ patientBob.patientID = "p1"
    ∧ getField docAlice "name" = some (BVal.str "Alice")
    ∧ patientBob.name = "Bob"
    ∧ BVal.str "Alice" ≠ BVal.str "Bob" := by
  refine ⟨rfl, rfl, rfl, rfl, ?_⟩
  simp

/-- C1 (amended): for every valid Patient payload P whose patientID does
not occur in the active collection yet, create_patient(P) followed by
get_patient(P.patientID) with no intervening operations returns the
stored document, whose patientID, name, age, gender, region and
medicalRecords fields all round-trip unchanged from P. -/
theorem create_then_get_roundtrip (s : ServerState) (p : Patient)
    (hfresh : ∀ d ∈ (activeStore s).docs, matchesId d p.patientID = false) :
    get_patient p.patientID ((create_patient p s).2)
      = (Resp.ok (("_id", BVal.oid (activeStore s).nextOid) :: p.toDoc),
         (create_patient p s).2)
    ∧ getField (("_id", BVal.oid (activeStore s).nextOid) :: p.toDoc) "patientID"
        = some (BVal.str p.patientID)
    ∧ getField (("_id", BVal.oid (activeStore s).nextOid) :: p.toDoc) "name"
        = some (BVal.str p.name)
    ∧ getField (("_id", BVal.oid (activeStore s).nextOid) :: p.toDoc) "age"
        = some (BVal.int p.age)
    ∧ getField (("_id", BVal.oid (activeStore s).nextOid) :: p.toDoc) "gender"
        = some (BVal.str p.gender)
    ∧ getField (("_id", BVal.oid (activeStore s).nextOid) :: p.toDoc) "region"
        = some (BVal.str p.region)
    ∧ getField (("_id", BVal.oid (activeStore s).nextOid) :: p.toDoc) "medicalRecords"
        = some (BVal.doc p.medicalRecords.toDoc) := by
  refine ⟨?_, rfl, rfl, rfl, rfl, rfl, rfl⟩
  exact get_patient_found (findOne_after_create hfresh) (by simp)

/-- C1 witness: the amended round-trip at the concrete patient Alice in
the initial (empty) deployment. -/
theorem create_then_get_roundtrip_witness :
    (∀ d ∈ (activeStore initialState).docs, matchesId d patientAlice.patientID = false)
    ∧ get_patient patientAlice.patientID ((create_patient patientAlice initialState).2)
        = (Resp.ok (("_id", BVal.oid 0) :: patientAlice.toDoc),
           (create_patient patientAlice initialState).2) :=
  ⟨by simp [initialState, activeStore],
   (create_then_get_roundtrip initialState patientAlice
      (by simp [initialState, activeStore])).1⟩

/-- C9: get_patient signals the 404 "Patient not found" error exactly
when no stored document's patientID field equals the requested id, and
when a match exists it returns the first matching document in store
order. -/
theorem get_patient_spec (s : ServerState) (pid : String) :
    ((get_patient pid s).1 = Resp.err 404 "Patient not found" ↔
       ∀ d ∈ (activeStore s).docs, getField d "patientID" ≠ some (BVal.str pid))
    ∧ (∀ pre d post, (activeStore s).docs = pre ++ d :: post →
        (∀ e ∈ pre, getField e "patientID" ≠ some (BVal.str pid)) →
        getField d "patientID" = some (BVal.str pid) →
        get_patient pid s = (Resp.ok d, s)) := by
  constructor
  · constructor
    · intro h d hd hfield
      cases hfind : findOne (activeStore s) pid with
      | none =>
          have := (findOne_eq_none.mp hfind) d hd
          rw [matchesId_iff.mpr hfield] at this
          exact absurd this (by simp)
      | some d₀ =>
          obtain ⟨_, hm⟩ := findOne_mem_match hfind
          have hrun := get_patient_found hfind (matchesId_ne_nil hm)
          rw [congrArg Prod.fst hrun] at h
          exact absurd h (by simp)
    · intro h
      have hfind : findOne (activeStore s) pid = none :=
        findOne_eq_none.mpr (fun d hd => by
          rw [Bool.eq_false_iff]
          intro hc
          exact h d hd (matchesId_iff.mp hc))
      rw [congrArg Prod.fst (get_patient_none hfind)]
  · intro pre d post hdocs hpre hfield
    have hd : matchesId d pid = true := matchesId_iff.mpr hfield
    have hfind := findOne_split hdocs
      (fun e he => by
        rw [Bool.eq_false_iff]
        intro hc
        exact hpre e he (matchesId_iff.mp hc)) hd
    exact get_patient_found hfind (matchesId_ne_nil hd)

/-- C9 witness: the missing-id case and the first-match case at concrete
inputs (the state holding only Alice). -/
theorem get_patient_spec_witness :
    (get_patient "nonexistent" sAlice).1 = Resp.err 404 "Patient not found"
    ∧ get_patient "p1" sAlice = (Resp.ok docAlice, sAlice) :=
  ⟨(get_patient_spec sAlice "nonexistent").1.mpr (by
      intro d hd
      have hd' : d = docAlice := by
        simpa [sAlice, docAlice, activeStore, initialState, create_patient,
          insertOne, setActiveStore] using hd
      subst hd'
      simp [docAlice, getField, patientAlice, Patient.toDoc, mrEmpty]),
   (get_patient_spec sAlice "p1").2 [] docAlice [] rfl (by simp) rfl⟩

/-- C10: get_patient applies no projection, so the raw stored document it
returns still carries the internal `_id` field, while
get_medical_records answers only the medicalRecords value, which never
contains `_id`: the two read operations differ in whether the store
identity reaches the caller. -/
theorem reads_differ_on_internal_id (s : ServerState) (p : Patient)
    (hfresh : ∀ d ∈ (activeStore s).docs, matchesId d p.patientID = false) :
    get_patient p.patientID ((create_patient p s).2)
      = (Resp.ok (("_id", BVal.oid (activeStore s).nextOid) :: p.toDoc),
         (create_patient p s).2)
    ∧ getField (("_id", BVal.oid (activeStore s).nextOid) :: p.toDoc) "_id"
        = some (BVal.oid (activeStore s).nextOid)
    ∧ get_medical_records p.patientID ((create_patient p s).2)
        = (Resp.ok (BVal.doc p.medicalRecords.toDoc), (create_patient p s).2)
    ∧ getField p.medicalRecords.toDoc "_id" = none := by
  refine ⟨?_, rfl, ?_, rfl⟩
  · exact get_patient_found (findOne_after_create hfresh) (by simp)
  · exact get_medical_records_found (findOne_after_create hfresh) rfl

/-- C10 witness: the two reads at the concrete patient Alice created in
the initial deployment. -/
theorem reads_differ_on_internal_id_witness :
    (∀ d ∈ (activeStore initialState).docs, matchesId d patientAlice.patientID = false)
    ∧ getField (("_id", BVal.oid 0) :: patientAlice.toDoc) "_id" = some (BVal.oid 0)
    ∧ get_medical_records patientAlice.patientID ((create_patient patientAlice initialState).2)
        = (Resp.ok (BVal.doc patientAlice.medicalRecords.toDoc),
           (create_patient patientAlice initialState).2) :=
  ⟨by simp [initialState, activeStore],
   (reads_differ_on_internal_id initialState patientAlice
      (by simp [initialState, activeStore])).2.1,
   (reads_differ_on_internal_id initialState patientAlice
      (by simp [initialState, activeStore])).2.2.1⟩

/-- C2: when exactly one stored document matches the id and its
medicalRecords.conditions array is empty, add_condition(id, c1) then
add_condition(id, c2) leaves the conditions array equal to [c1, c2] in
that order - the append goes to the end, preserves insertion order and
performs no reordering or deduplication - and get_medical_records then
answers exactly those records. -/
theorem append_conditions_order (s : ServerState) (pid : String)
    (pre post : List BDoc) (d : BDoc) (r : MedicalRecords) (c1 c2 : Condition)
    (hdocs : (activeStore s).docs = pre ++ d :: post)
    (hpre : ∀ e ∈ pre, matchesId e pid = false)
    (hpost : ∀ e ∈ post, matchesId e pid = false)
    (hd : matchesId d pid = true)
    (hmr : getField d "medicalRecords" = some (BVal.doc r.toDoc))
    (hempty : r.conditions = []) :
    ∃ d2 : BDoc,
      (activeStore ((add_condition pid c2 ((add_condition pid c1 s).2)).2)).docs
        = pre ++ d2 :: post
      ∧ getField d2 "medicalRecords"
          = some (BVal.doc ({ r with conditions := [c1, c2] } : MedicalRecords).toDoc)
      ∧ get_medical_records pid ((add_condition pid c2 ((add_condition pid c1 s).2)).2)
          = (Resp.ok (BVal.doc ({ r with conditions := [c1, c2] } : MedicalRecords).toDoc),
             (add_condition pid c2 ((add_condition pid c1 s).2)).2) := by
  have _hpost := hpost
  have hr1 : ({ r with conditions := r.conditions ++ [c1] } : MedicalRecords)
      = { r with conditions := [c1] } := by
    simp [hempty]
  have step1 := add_condition_effect c1 hdocs hpre hd hmr
  rw [hr1] at step1
  have hs1 : (add_condition pid c1 s).2
      = setActiveStore s
          ⟨pre ++ setField d "medicalRecords"
              (BVal.doc ({ r with conditions := [c1] } : MedicalRecords).toDoc) :: post,
           (activeStore s).nextOid⟩ := congrArg Prod.snd step1
  have hact1 : (activeStore ((add_condition pid c1 s).2)).docs
      = pre ++ setField d "medicalRecords"
          (BVal.doc ({ r with conditions := [c1] } : MedicalRecords).toDoc) :: post := by
    rw [hs1, activeStore_setActiveStore]
  have hpid : ("patientID" : String) ≠ "medicalRecords" := by decide
  have hd1 : matchesId (setField d "medicalRecords"
      (BVal.doc ({ r with conditions := [c1] } : MedicalRecords).toDoc)) pid = true := by
    rw [matchesId_iff, getField_setField_other d _ _ _ hpid]
    exact matchesId_iff.mp hd
  have hmr1 : getField (setField d "medicalRecords"
      (BVal.doc ({ r with conditions := [c1] } : MedicalRecords).toDoc)) "medicalRecords"
      = some (BVal.doc ({ r with conditions := [c1] } : MedicalRecords).toDoc) :=
    getField_setField_same d _ _
  have hr2 : ({ ({ r with conditions := [c1] } : MedicalRecords) with
      conditions := ({ r with conditions := [c1] } : MedicalRecords).conditions ++ [c2] }
        : MedicalRecords)
      = { r with conditions := [c1, c2] } := rfl
  have step2 := add_condition_effect c2 hact1 hpre hd1 hmr1
  rw [hr2] at step2
  refine ⟨setField (setField d "medicalRecords"
      (BVal.doc ({ r with conditions := [c1] } : MedicalRecords).toDoc)) "medicalRecords"
      (BVal.doc ({ r with conditions := [c1, c2] } : MedicalRecords).toDoc), ?_, ?_, ?_⟩
  · rw [congrArg Prod.snd step2, activeStore_setActiveStore]
  · exact getField_setField_same _ _ _
  · have hd2 : matchesId (setField (setField d "medicalRecords"
        (BVal.doc ({ r with conditions := [c1] } : MedicalRecords).toDoc)) "medicalRecords"
        (BVal.doc ({ r with conditions := [c1, c2] } : MedicalRecords).toDoc)) pid = true := by
      rw [matchesId_iff, getField_setField_other _ _ _ _ hpid]
      exact matchesId_iff.mp hd1
    have hfind2 : findOne (activeStore ((add_condition pid c2 ((add_condition pid c1 s).2)).2)) pid
        = some (setField (setField d "medicalRecords"
            (BVal.doc ({ r with conditions := [c1] } : MedicalRecords).toDoc)) "medicalRecords"
            (BVal.doc ({ r with conditions := [c1, c2] } : MedicalRecords).toDoc)) := by
      rw [findOne, congrArg Prod.snd step2, activeStore_setActiveStore]
      exact find?_split hpre hd2
    exact get_medical_records_found hfind2 (getField_setField_same _ _ _)

/-- C2 witness: the concrete append of cond1 then cond2 onto Alice's
empty conditions array. -/
theorem append_conditions_order_witness :
    (matchesId docAlice "p1" = true)
    ∧ ∃ d2 : BDoc,
        (activeStore ((add_condition "p1" cond2 ((add_condition "p1" cond1 sAlice).2)).2)).docs
          = [] ++ d2 :: []
        ∧ getField d2 "medicalRecords"
            = some (BVal.doc ({ mrEmpty with conditions := [cond1, cond2] } : MedicalRecords).toDoc)
        ∧ get_medical_records "p1" ((add_condition "p1" cond2 ((add_condition "p1" cond1 sAlice).2)).2)
            = (Resp.ok (BVal.doc ({ mrEmpty with conditions := [cond1, cond2] } : MedicalRecords).toDoc),
               (add_condition "p1" cond2 ((add_condition "p1" cond1 sAlice).2)).2) :=
  ⟨rfl,
   append_conditions_order sAlice "p1" [] [] docAlice mrEmpty cond1 cond2
     rfl (by simp) (by simp) rfl rfl rfl⟩

/-- C3 counterexample: a field map whose single key is the dotted path
"medicalRecords.conditions" does not contain the top-level key
"medicalRecords", yet update_patient with it modifies the stored
medicalRecords field, so keys absent from the map do not always leave
the corresponding fields unchanged. -/
theorem update_patient_dotted_key_cex :
    ("medicalRecords.conditions" : String) ≠ "medicalRecords"
    ∧ (update_patient "p1" [("medicalRecords.conditions", BVal.str "zap")] sAlice).1
        = Resp.ok "Patient record updated successfully"
    ∧ findOne (activeStore
          ((update_patient "p1" [("medicalRecords.conditions", BVal.str "zap")] sAlice).2)) "p1"
        = some [("_id", BVal.oid 0), ("patientID", BVal.str "p1"),
                ("name", BVal.str "Alice"), ("age", BVal.int 30),
                ("gender", BVal.str "F"), ("region", BVal.str "NE"),
                ("medicalRecords", BVal.doc [("conditions", BVal.str "zap"),
                  ("medications", BVal.arr []), ("observations", BVal.arr [])])]
    ∧ getField docAlice "medicalRecords" = some (BVal.doc mrEmpty.toDoc)
    ∧ BVal.doc [("conditions", BVal.str "zap"), ("medications", BVal.arr []),
        ("observations", BVal.arr [])] ≠ BVal.doc mrEmpty.toDoc := by
  refine ⟨by decide, rfl, rfl, rfl, ?_⟩
  simp [mrEmpty, MedicalRecords.toDoc]

/-- C3 (amended): update_patient(id, map) rewrites the first matching
document through the map; the field map \x7b"age": 40\x7d sets age to 40 and
leaves every other top-level field unchanged, and in general a
top-level field is untouched whenever it is not the first dotted
segment of any key of the map (keys without dots shallow-merge; a
dotted key writes inside the top-level field named by its first
segment). -/
theorem update_patient_shallow_merge (s : ServerState) (pid : String)
    (pre post : List BDoc) (d d' : BDoc) (m : List (String × BVal))
    (hdocs : (activeStore s).docs = pre ++ d :: post)
    (hpre : ∀ e ∈ pre, matchesId e pid = false)
    (hd : matchesId d pid = true)
    (happ : applySet d m = some d') :
    (activeStore ((update_patient pid m s).2)).docs = pre ++ d' :: post
    ∧ (update_patient pid m s).1 = Resp.ok "Patient record updated successfully"
    ∧ (∀ f : String, (∀ kv ∈ m, headSeg kv.1 ≠ f) → getField d' f = getField d f)
    ∧ (m = [("age", BVal.int 40)] →
        getField d' "age" = some (BVal.int 40)
        ∧ ∀ f : String, f ≠ "age" → getField d' f = getField d f) := by
  have heff := update_patient_effect m hdocs hpre hd happ
  refine ⟨?_, congrArg Prod.fst heff, ?_, ?_⟩
  · rw [congrArg Prod.snd heff, activeStore_setActiveStore]
  · intro f hf
    exact getField_applySet_other happ hf
  · intro hm
    subst hm
    have hone : applySet d [("age", BVal.int 40)]
        = some (setField d "age" (BVal.int 40)) := by
      rw [applySet_single]
      rw [show splitOnDot "age" = ["age"] from rfl]
      simp [setPath, show validSegment "age" = true from rfl]
    rw [hone] at happ
    have hd' : d' = setField d "age" (BVal.int 40) := (Option.some.inj happ).symm
    subst hd'
    exact ⟨getField_setField_same d _ _,
      fun f hf => getField_setField_other d _ _ _ hf⟩

/-- C3 witness: the concrete age update on Alice's document. -/
theorem update_patient_shallow_merge_witness :
    (applySet docAlice [("age", BVal.int 40)]
        = some (setField docAlice "age" (BVal.int 40)))
    ∧ ((activeStore ((update_patient "p1" [("age", BVal.int 40)] sAlice).2)).docs
        = [] ++ setField docAlice "age" (BVal.int 40) :: []
      ∧ (update_patient "p1" [("age", BVal.int 40)] sAlice).1
          = Resp.ok "Patient record updated successfully"
      ∧ (∀ f : String, (∀ kv ∈ [("age", BVal.int 40)], headSeg kv.1 ≠ f) →
          getField (setField docAlice "age" (BVal.int 40)) f = getField docAlice f)
      ∧ ([("age", BVal.int 40)] = [("age", BVal.int 40)] →
          getField (setField docAlice "age" (BVal.int 40)) "age" = some (BVal.int 40)
          ∧ ∀ f : String, f ≠ "age" →
              getField (setField docAlice "age" (BVal.int 40)) f = getField docAlice f)) :=
  ⟨rfl,
   update_patient_shallow_merge sAlice "p1" [] [] docAlice
     (setField docAlice "age" (BVal.int 40)) [("age", BVal.int 40)]
     rfl (by simp) rfl rfl⟩

/-- C4: update_medical_records replaces the embedded medicalRecords value
wholesale on the first matching document: afterwards the field holds
exactly the encoding of newRecords, whose conditions, medications and
observations arrays are exactly those of newRecords, with nothing of
the prior value retained. -/
theorem update_medical_records_wholesale (s : ServerState) (pid : String)
    (pre post : List BDoc) (d : BDoc) (newR : MedicalRecords)
    (hdocs : (activeStore s).docs = pre ++ d :: post)
    (hpre : ∀ e ∈ pre, matchesId e pid = false)
    (hd : matchesId d pid = true) :
    (activeStore ((update_medical_records pid newR s).2)).docs
      = pre ++ setField d "medicalRecords" (BVal.doc newR.toDoc) :: post
    ∧ (update_medical_records pid newR s).1
        = Resp.ok "Medical records updated successfully"
    ∧ getField (setField d "medicalRecords" (BVal.doc newR.toDoc)) "medicalRecords"
        = some (BVal.doc newR.toDoc)
    ∧ getField newR.toDoc "conditions"
        = some (BVal.arr (newR.conditions.map (fun c => BVal.doc c.toDoc)))
    ∧ getField newR.toDoc "medications"
        = some (BVal.arr (newR.medications.map (fun mm => BVal.doc mm.toDoc)))
    ∧ getField newR.toDoc "observations"
        = some (BVal.arr (newR.observations.map (fun o => BVal.doc o.toDoc))) := by
  have heff := update_medical_records_effect newR hdocs hpre hd
  refine ⟨?_, congrArg Prod.fst heff, getField_setField_same d _ _, rfl, rfl, rfl⟩
  rw [congrArg Prod.snd heff, activeStore_setActiveStore]

/-- C4 witness: wholesale replacement on Alice's document with records
holding one condition. -/
theorem update_medical_records_wholesale_witness :
    (matchesId docAlice "p1" = true)
    ∧ (activeStore ((update_medical_records "p1" ⟨[cond2], [], []⟩ sAlice).2)).docs
        = [] ++ setField docAlice "medicalRecords"
            (BVal.doc (MedicalRecords.toDoc ⟨[cond2], [], []⟩)) :: []
    ∧ getField (setField docAlice "medicalRecords"
          (BVal.doc (MedicalRecords.toDoc ⟨[cond2], [], []⟩))) "medicalRecords"
        = some (BVal.doc (MedicalRecords.toDoc ⟨[cond2], [], []⟩)) :=
  ⟨rfl,
   (update_medical_records_wholesale sAlice "p1" [] [] docAlice ⟨[cond2], [], []⟩
      rfl (by simp) rfl).1,
   (update_medical_records_wholesale sAlice "p1" [] [] docAlice ⟨[cond2], [], []⟩
      rfl (by simp) rfl).2.2.1⟩

theorem WFStore_updateOne {st st' : Store} {pid : String} {u : UpdateSpec}
    {n : Nat} (hw : WFStore st)
    (hpres : ∀ d e, WFPat d → matchesId d pid = true →
      applyUpdate d u = some e → WFPat e)
    (h : updateOne st pid u = some (st', n)) : WFStore st' := by
  rw [updateOne] at h
  cases hrec : updateFirst pid (fun d => applyUpdate d u) st.docs with
  | none => rw [hrec] at h; simp at h
  | some q =>
      obtain ⟨l', n'⟩ := q
      rw [hrec] at h
      simp only [Option.map_some'] at h
      injection h with h
      injection h with h1 h2
      subst h1
      intro d hd
      rcases updateFirst_mem hrec d hd with hmem | ⟨d₀, hd₀, hm, hf⟩
      · exact hw d hmem
      · exact hpres d₀ d (hw d₀ hd₀) hm hf

theorem WFStore_create {s : ServerState} (p : Patient)
    (hw : WFStore (activeStore s)) :
    WFStore (activeStore ((create_patient p s).2)) := by
  rw [show (create_patient p s).2
      = setActiveStore s
          ⟨(activeStore s).docs
             ++ [("_id", BVal.oid (activeStore s).nextOid) :: p.toDoc],
           (activeStore s).nextOid + 1⟩
    from congrArg Prod.snd (create_patient_effect p s), activeStore_setActiveStore]
  intro d hd
  rcases List.mem_append.mp hd with h1 | h1
  · exact hw d h1
  · rw [List.mem_singleton.mp h1]
    exact ⟨p.medicalRecords, rfl⟩

theorem WFStore_update_patient {s : ServerState} {pid : String}
    {m : List (String × BVal)}
    (hg : ∀ kv ∈ m, headSeg kv.1 ≠ "medicalRecords")
    (hw : WFStore (activeStore s)) :
    WFStore (activeStore ((update_patient pid m s).2)) := by
  have hpres : ∀ d e, WFPat d → matchesId d pid = true →
      applyUpdate d (UpdateSpec.set m) = some e → WFPat e := by
    intro d e hwd _ hf
    obtain ⟨r, hr⟩ := hwd
    rw [applyUpdate] at hf
    exact ⟨r, by rw [getField_applySet_other hf hg, hr]⟩
  cases hu : updateOne (activeStore s) pid (UpdateSpec.set m) with
  | none => simpa [update_patient, hu] using hw
  | some q =>
      obtain ⟨st', n⟩ := q
      have h2 : (update_patient pid m s).2 = setActiveStore s st' := by
        by_cases hn : n = 0
        · simp [update_patient, hu, hn]
        · simp [update_patient, hu, hn]
      rw [h2, activeStore_setActiveStore]
      exact WFStore_updateOne hw hpres hu

theorem WFStore_update_medical_records {s : ServerState} {pid : String}
    (newR : MedicalRecords) (hw : WFStore (activeStore s)) :
    WFStore (activeStore ((update_medical_records pid newR s).2)) := by
  have hpres : ∀ d e, WFPat d → matchesId d pid = true →
      applyUpdate d (UpdateSpec.set [("medicalRecords", BVal.doc newR.toDoc)])
        = some e → WFPat e := by
    intro d e _ _ hf
    rw [applyUpdate, applySet_single, setPath_mr] at hf
    have he : e = setField d "medicalRecords" (BVal.doc newR.toDoc) :=
      (Option.some.inj hf).symm
    subst he
    exact ⟨newR, getField_setField_same d _ _⟩
  cases hu : updateOne (activeStore s) pid
      (UpdateSpec.set [("medicalRecords", BVal.doc newR.toDoc)]) with
  | none => simpa [update_medical_records, hu] using hw
  | some q =>
      obtain ⟨st', n⟩ := q
      have h2 : (update_medical_records pid newR s).2 = setActiveStore s st' := by
        by_cases hn : n = 0
        · simp [update_medical_records, hu, hn]
        · simp [update_medical_records, hu, hn]
      rw [h2, activeStore_setActiveStore]
      exact WFStore_updateOne hw hpres hu

theorem WFStore_add_condition {s : ServerState} {pid : String} (c : Condition)
    (hw : WFStore (activeStore s)) :
    WFStore (activeStore ((add_condition pid c s).2)) := by
  have hpres : ∀ d e, WFPat d → matchesId d pid = true →
      applyUpdate d (UpdateSpec.push "medicalRecords.conditions"
        (BVal.doc c.toDoc)) = some e → WFPat e := by
    intro d e hwd _ hf
    obtain ⟨r, hr⟩ := hwd
    rw [applyUpdate, pushPath_conditions c hr] at hf
    have he : e = setField d "medicalRecords"
        (BVal.doc ({ r with conditions := r.conditions ++ [c] } :
          MedicalRecords).toDoc) := (Option.some.inj hf).symm
    subst he
    exact ⟨_, getField_setField_same d _ _⟩
  cases hu : updateOne (activeStore s) pid
      (UpdateSpec.push "medicalRecords.conditions" (BVal.doc c.toDoc)) with
  | none => simpa [add_condition, hu] using hw
  | some q =>
      obtain ⟨st', n⟩ := q
      have h2 : (add_condition pid c s).2 = setActiveStore s st' := by
        by_cases hn : n = 0
        · simp [add_condition, hu, hn]
        · simp [add_condition, hu, hn]
      rw [h2, activeStore_setActiveStore]
      exact WFStore_updateOne hw hpres hu

theorem WFStore_add_medication {s : ServerState} {pid : String} (mm : Medication)
    (hw : WFStore (activeStore s)) :
    WFStore (activeStore ((add_medication pid mm s).2)) := by
  have hpres : ∀ d e, WFPat d → matchesId d pid = true →
      applyUpdate d (UpdateSpec.push "medicalRecords.medications"
        (BVal.doc mm.toDoc)) = some e → WFPat e := by
    intro d e hwd _ hf
    obtain ⟨r, hr⟩ := hwd
    rw [applyUpdate, pushPath_medications mm hr] at hf
    have he : e = setField d "medicalRecords"
        (BVal.doc ({ r with medications := r.medications ++ [mm] } :
          MedicalRecords).toDoc) := (Option.some.inj hf).symm
    subst he
    exact ⟨_, getField_setField_same d _ _⟩
  cases hu : updateOne (activeStore s) pid
      (UpdateSpec.push "medicalRecords.medications" (BVal.doc mm.toDoc)) with
  | none => simpa [add_medication, hu] using hw
  | some q =>
      obtain ⟨st', n⟩ := q
      have h2 : (add_medication pid mm s).2 = setActiveStore s st' := by
        by_cases hn : n = 0
        · simp [add_medication, hu, hn]
        · simp [add_medication, hu, hn]
      rw [h2, activeStore_setActiveStore]
      exact WFStore_updateOne hw hpres hu

theorem WFStore_add_observation {s : ServerState} {pid : String} (o : Observation)
    (hw : WFStore (activeStore s)) :
    WFStore (activeStore ((add_observation pid o s).2)) := by
  have hpres : ∀ d e, WFPat d → matchesId d pid = true →
      applyUpdate d (UpdateSpec.push "medicalRecords.observations"
        (BVal.doc o.toDoc)) = some e → WFPat e := by
    intro d e hwd _ hf
    obtain ⟨r, hr⟩ := hwd
    rw [applyUpdate, pushPath_observations o hr] at hf
    have he : e = setField d "medicalRecords"
        (BVal.doc ({ r with observations := r.observations ++ [o] } :
          MedicalRecords).toDoc) := (Option.some.inj hf).symm
    subst he
    exact ⟨_, getField_setField_same d _ _⟩
  cases hu : updateOne (activeStore s) pid
      (UpdateSpec.push "medicalRecords.observations" (BVal.doc o.toDoc)) with
  | none => simpa [add_observation, hu] using hw
  | some q =>
      obtain ⟨st', n⟩ := q
      have h2 : (add_observation pid o s).2 = setActiveStore s st' := by
        by_cases hn : n = 0
        · simp [add_observation, hu, hn]
        · simp [add_observation, hu, hn]
      rw [h2, activeStore_setActiveStore]
      exact WFStore_updateOne hw hpres hu

/-- C5 counterexample: update_patient with the arbitrary field map
\x7b"medicalRecords": 42\x7d succeeds on a freshly created patient and leaves
the medicalRecords field holding the integer 42, which is not a
well-formed MedicalRecords value - so the invariant does not survive
update_patient with an arbitrary field map. -/
theorem medicalRecords_clobber_cex :
    (update_patient "p1" [("medicalRecords", BVal.int 42)] sAlice).1
      = Resp.ok "Patient record updated successfully"
    ∧ findOne (activeStore
          ((update_patient "p1" [("medicalRecords", BVal.int 42)] sAlice).2)) "p1"
        = some [("_id", BVal.oid 0), ("patientID", BVal.str "p1"),
                ("name", BVal.str "Alice"), ("age", BVal.int 30),
                ("gender", BVal.str "F"), ("region", BVal.str "NE"),
                ("medicalRecords", BVal.int 42)]
    ∧ ¬ WFPat [("_id", BVal.oid 0), ("patientID", BVal.str "p1"),
                ("name", BVal.str "Alice"), ("age", BVal.int 30),
                ("gender", BVal.str "F"), ("region", BVal.str "NE"),
                ("medicalRecords", BVal.int 42)] := by
  refine ⟨rfl, rfl, ?_⟩
  rintro ⟨r, hr⟩
  simp [getField] at hr

/-- C5 (amended): a collection in which every document embeds a
well-formed MedicalRecords value stays that way through create_patient,
through update_medical_records, through the three append operations,
and through update_patient whenever no key of the supplied field map
writes into the medicalRecords field (its first dotted segment differs
from "medicalRecords"); update_patient with an unrestricted field map
can destroy the invariant. -/
theorem medicalRecords_wellformed_invariant :
    (∀ (s : ServerState) (p : Patient), WFStore (activeStore s) →
        WFStore (activeStore ((create_patient p s).2)))
    ∧ (∀ (s : ServerState) (pid : String) (m : List (String × BVal)),
        (∀ kv ∈ m, headSeg kv.1 ≠ "medicalRecords") →
        WFStore (activeStore s) →
        WFStore (activeStore ((update_patient pid m s).2)))
    ∧ (∀ (s : ServerState) (pid : String) (r : MedicalRecords),
        WFStore (activeStore s) →
        WFStore (activeStore ((update_medical_records pid r s).2)))
    ∧ (∀ (s : ServerState) (pid : String) (c : Condition),
        WFStore (activeStore s) →
        WFStore (activeStore ((add_condition pid c s).2)))
    ∧ (∀ (s : ServerState) (pid : String) (mm : Medication),
        WFStore (activeStore s) →
        WFStore (activeStore ((add_medication pid mm s).2)))
    ∧ (∀ (s : ServerState) (pid : String) (o : Observation),
        WFStore (activeStore s) →
        WFStore (activeStore ((add_observation pid o s).2))) :=
  ⟨fun _ p hw => WFStore_create p hw,
   fun _ _ _ hg hw => WFStore_update_patient hg hw,
   fun _ _ r hw => WFStore_update_medical_records r hw,
   fun _ _ c hw => WFStore_add_condition c hw,
   fun _ _ mm hw => WFStore_add_medication mm hw,
   fun _ _ o hw => WFStore_add_observation o hw⟩

/-- C5 witness: the invariant holds for the collection containing Alice
and is preserved by a concrete append. -/
theorem medicalRecords_wellformed_invariant_witness :
    WFStore (activeStore sAlice)
    ∧ WFStore (activeStore ((add_condition "p1" cond1 sAlice).2)) :=
  have h : WFStore (activeStore sAlice) := by
    intro d hd
    rw [show (activeStore sAlice).docs = [docAlice] from rfl] at hd
    rw [List.mem_singleton.mp hd]
    exact ⟨mrEmpty, rfl⟩
  ⟨h, medicalRecords_wellformed_invariant.2.2.2.1 sAlice "p1" cond1 h⟩

/-- C6: an admin reconnection request whose credential pair is not
exactly the configured admin username/password fails with the 401
Unauthorized error and leaves the whole server state - in particular
the active store handle - unchanged, so any get_patient that succeeded
before still returns the same document. -/
theorem change_connection_unauthorized (s : ServerState) (u p : Option String)
    (details : ConnectionDetails)
    (h : ¬ (u = some ADMIN_USERNAME ∧ p = some ADMIN_PASSWORD)) :
    change_connection u p details s = (Resp.err 401 "Unauthorized", s)
    ∧ (∀ pid : String,
        get_patient pid ((change_connection u p details s).2) = get_patient pid s)
    ∧ (∀ (pid : String) (d : BDoc), get_patient pid s = (Resp.ok d, s) →
        get_patient pid ((change_connection u p details s).2) = (Resp.ok d, s)) := by
  have hauth : authenticate_admin u p = false := by
    rw [Bool.eq_false_iff]
    intro hc
    apply h
    simpa [authenticate_admin] using hc
  have h1 : change_connection u p details s = (Resp.err 401 "Unauthorized", s) := by
    simp [change_connection, hauth]
  refine ⟨h1, ?_, ?_⟩
  · intro pid
    rw [congrArg Prod.snd h1]
  · intro pid d hget
    rw [congrArg Prod.snd h1]
    exact hget

/-- C6 witness: a wrong password against the state holding Alice. -/
theorem change_connection_unauthorized_witness :
    ¬ ((some "admin" : Option String) = some ADMIN_USERNAME
        ∧ (some "wrong" : Option String) = some ADMIN_PASSWORD)
    ∧ change_connection (some "admin") (some "wrong") detailsEmptyUser sAlice
        = (Resp.err 401 "Unauthorized", sAlice)
    ∧ get_patient "p1" ((change_connection (some "admin") (some "wrong")
          detailsEmptyUser sAlice).2)
        = (Resp.ok docAlice, sAlice) :=
  ⟨by decide,
   (change_connection_unauthorized sAlice (some "admin") (some "wrong")
      detailsEmptyUser (by decide)).1,
   (change_connection_unauthorized sAlice (some "admin") (some "wrong")
      detailsEmptyUser (by decide)).2.2 "p1" docAlice rfl⟩

/-- C7: get_medical_records signals its 404 "Medical records not found"
error exactly when no document matches the id or when the first match
lacks a medicalRecords field - the two cases produce the very same
error value, indistinguishable to the caller - and when the field is
present it returns only the medicalRecords value of the document. -/
theorem get_medical_records_cases (s : ServerState) (pid : String) :
    ((get_medical_records pid s).1 = Resp.err 404 "Medical records not found" ↔
       findOne (activeStore s) pid = none
       ∨ ∃ d, findOne (activeStore s) pid = some d
           ∧ getField d "medicalRecords" = none)
    ∧ (∀ (d : BDoc) (v : BVal), findOne (activeStore s) pid = some d →
        getField d "medicalRecords" = some v →
        get_medical_records pid s = (Resp.ok v, s)) := by
  constructor
  · cases hfind : findOne (activeStore s) pid with
    | none => simp [get_medical_records, hfind]
    | some d =>
        cases hv : getField d "medicalRecords" with
        | none => simp [get_medical_records, hfind, projectMedicalRecords, hv]
        | some v =>
            simp [get_medical_records, hfind, projectMedicalRecords, hv, getField]
  · intro d v hfind hv
    exact get_medical_records_found hfind hv

/-- C7 witness: the present-field case at Alice's document. -/
theorem get_medical_records_cases_witness :
    get_medical_records "p1" sAlice = (Resp.ok (BVal.doc mrEmpty.toDoc), sAlice) :=
  (get_medical_records_cases sAlice "p1").2 docAlice (BVal.doc mrEmpty.toDoc) rfl rfl

/-- C8 counterexample: a ConnectionDetails whose username is present but
empty has both credential fields present, yet the authorized
reconnection builds and installs the unauthenticated URI, because the
code tests Python truthiness rather than presence. -/
theorem mongoUri_empty_username_cex :
    detailsEmptyUser.username = some "" ∧ detailsEmptyUser.password = some "pw"
    ∧ detailsEmptyUser.username ≠ none ∧ detailsEmptyUser.password ≠ none
    ∧ mongoUri detailsEmptyUser = "mongodb://h:7"
    ∧ (change_connection (some "admin") (some "cse-512-master-password")
         detailsEmptyUser initialState).2.uri = "mongodb://h:7"
    ∧ ("mongodb://h:7" : String) ≠ "mongodb://:pw@h:7" := by
  refine ⟨rfl, rfl, by simp [detailsEmptyUser], by simp [detailsEmptyUser], rfl, rfl, by decide⟩

/-- C8 (amended): an authorized reconnection succeeds, builds the URI
embedding username and password exactly when both are present and
nonempty (and the plain host:port URI when either is absent or empty),
records the released prior client, and installs the new URI and
database as the process-wide handle that all subsequent operations
read. -/
theorem change_connection_success (s : ServerState) (u p : Option String)
    (details : ConnectionDetails)
    (hu : u = some ADMIN_USERNAME) (hp : p = some ADMIN_PASSWORD) :
    (change_connection u p details s).1
        = Resp.ok "MongoDB connection updated successfully"
    ∧ (change_connection u p details s).2.uri = mongoUri details
    ∧ (change_connection u p details s).2.database = details.database
    ∧ (change_connection u p details s).2.closedClients
        = s.closedClients ++ [s.uri]
    ∧ (change_connection u p details s).2.world = s.world
    ∧ activeStore ((change_connection u p details s).2)
        = s.world (mongoUri details) details.database
    ∧ (∀ usr pw, details.username = some usr → details.password = some pw →
        usr ≠ "" → pw ≠ "" →
        mongoUri details
          = "mongodb://" ++ usr ++ ":" ++ pw ++ "@" ++ details.host ++ ":"
              ++ toString details.port)
    ∧ ((details.username = none ∨ details.username = some ""
          ∨ details.password = none ∨ details.password = some "") →
        mongoUri details
          = "mongodb://" ++ details.host ++ ":" ++ toString details.port) := by
  subst hu hp
  have hauth : authenticate_admin (some ADMIN_USERNAME) (some ADMIN_PASSWORD) = true := by
    simp [authenticate_admin]
  refine ⟨by simp [change_connection, hauth], by simp [change_connection, hauth],
    by simp [change_connection, hauth], by simp [change_connection, hauth],
    by simp [change_connection, hauth],
    by simp [change_connection, hauth, activeStore], ?_, ?_⟩
  · intro usr pw h1 h2 h3 h4
    simp [mongoUri, truthy, h1, h2, h3, h4]
  · intro hcase
    rcases hcase with h1 | h1 | h1 | h1 <;> simp [mongoUri, truthy, h1]

/-- C8 witness: authorized reconnection with nonempty credentials builds
the authenticated URI. -/
theorem change_connection_success_witness :
    ((some ADMIN_USERNAME : Option String) = some ADMIN_USERNAME)
    ∧ (change_connection (some ADMIN_USERNAME) (some ADMIN_PASSWORD)
          ⟨"db.example", 27017, some "u", some "pw", "newdb"⟩ sAlice).1
        = Resp.ok "MongoDB connection updated successfully"
    ∧ (change_connection (some ADMIN_USERNAME) (some ADMIN_PASSWORD)
          ⟨"db.example", 27017, some "u", some "pw", "newdb"⟩ sAlice).2.uri
        = mongoUri ⟨"db.example", 27017, some "u", some "pw", "newdb"⟩
    ∧ mongoUri ⟨"db.example", 27017, some "u", some "pw", "newdb"⟩
        = "mongodb://" ++ "u" ++ ":" ++ "pw" ++ "@" ++ "db.example" ++ ":"
            ++ toString (27017 : Int) :=
  ⟨rfl,
   (change_connection_success sAlice (some ADMIN_USERNAME) (some ADMIN_PASSWORD)
      ⟨"db.example", 27017, some "u", some "pw", "newdb"⟩ rfl rfl).1,
   (change_connection_success sAlice (some ADMIN_USERNAME) (some ADMIN_PASSWORD)
      ⟨"db.example", 27017, some "u", some "pw", "newdb"⟩ rfl rfl).2.1,
   (change_connection_success sAlice (some ADMIN_USERNAME) (some ADMIN_PASSWORD)
      ⟨"db.example", 27017, some "u", some "pw", "newdb"⟩ rfl rfl).2.2.2.2.2.2.1
     "u" "pw" rfl rfl (by decide) (by decide)⟩

end HealthCare
